import Mathlib

/-!
Verification development for the BayerCLAW job-definition custom-resource
handler (`src/lambda/src/job_def/register.py`).

The Python module is embedded shallowly:

* JSON values (the dynamic dictionaries the handler manipulates) become the
  inductive type `Json`; Python dicts are association lists with Python's
  insertion-order update semantics (`dictGet` / `dictSet`).
* `json.dumps(·, sort_keys=True, separators=(",", ":"))` becomes
  `jsonDumpsCanon`; `json.loads` becomes the fuel-based parser `jsonLoads`.
* `edit_spec` is embedded twice: `edit_spec` gives the value-level result
  (the dictionary value returned to the caller), and `edit_spec_heap` gives
  the store-level semantics on an explicit heap of Python objects, which is
  needed to reason about the shallow-copy aliasing of nested containers.
* The `responder` context manager and `lambda_handler` become functions that
  return an `Except PyErr Unit` outcome together with the list of external
  effects performed (batch API calls and the callback HTTP PUT).

Exceptions are `PyErr`; the AWS Batch client is an oracle (`BatchClient`)
supplying the outcomes of its two API calls.
-/

/-- JSON values, as produced by Python's `json.loads` for this handler's
inputs.  Python dicts keep insertion order, so objects are association
lists.  (Floats do not occur in this handler's specs and are not modelled.) -/
inductive Json where
  | null
  | bool (b : Bool)
  | int (n : Int)
  | str (s : String)
  | arr (xs : List Json)
  | obj (kvs : List (String × Json))

/-- Python exceptions that the handler's code paths can raise. -/
inductive PyErr where
  | keyError (key : String)
  | typeError (msg : String)
  | valueError (msg : String)
  | apiError (msg : String)
  deriving DecidableEq, Repr

/-- Python `d[k]` lookup on a dict (as an association list): first binding
wins; Python dicts never hold duplicate keys, so this is the binding. -/
def dictGet {α : Type} (kvs : List (String × α)) (k : String) : Option α :=
  match kvs.find? (fun p => p.1 == k) with
  | some p => some p.2
  | none => none

/-- Python `d[k] = v` on a dict: if `k` is present its (first, hence only)
binding is replaced in place (insertion order kept), otherwise the new
binding is appended at the end. -/
def dictSet {α : Type} : List (String × α) → String → α → List (String × α)
  | [], k, v => [(k, v)]
  | p :: rest, k, v =>
      if p.1 == k then (k, v) :: rest else p :: dictSet rest k v

/-- One hexadecimal digit, lowercase (as CPython's `json` emits). -/
def hexDigit (n : Nat) : Char :=
  if n < 10 then Char.ofNat (48 + n) else Char.ofNat (87 + n)

/-- Four-digit lowercase hex, for `\uXXXX` escapes. -/
def hex4 (n : Nat) : String :=
  String.mk [hexDigit (n / 4096 % 16), hexDigit (n / 256 % 16),
             hexDigit (n / 16 % 16), hexDigit (n % 16)]

/-- Escaping of one character inside a JSON string literal, following
CPython's `json.dumps` with its default `ensure_ascii=True`. -/
def escapeChar (c : Char) : String :=
  if c = '"' then "\\\""
  else if c = '\\' then "\\\\"
  else if c = '\n' then "\\n"
  else if c = '\r' then "\\r"
  else if c = '\t' then "\\t"
  else if c.toNat = 8 then "\\b"
  else if c.toNat = 12 then "\\f"
  else if c.toNat < 32 ∨ c.toNat ≥ 127 then
    if c.toNat < 65536 then "\\u" ++ hex4 c.toNat
    else
      "\\u" ++ hex4 (55296 + (c.toNat - 65536) / 1024) ++
      "\\u" ++ hex4 (56320 + (c.toNat - 65536) % 1024)
  else String.mk [c]

/-- A JSON string literal: quotes around the escaped characters. -/
def quoteJsonString (s : String) : String :=
  "\"" ++ String.join (s.data.map escapeChar) ++ "\""

/-- Lexicographic comparison of strings as code-point sequences: this is how
CPython compares `str` keys when `sort_keys=True` sorts a dict. -/
def keyLe : List Char → List Char → Bool
  | [], _ => true
  | _ :: _, [] => false
  | a :: as, b :: bs => if a < b then true else if b < a then false else keyLe as bs

/-- The key ordering used to sort rendered object entries. -/
def pairKeyLe (p q : String × String) : Prop := keyLe p.1.data q.1.data = true

instance : DecidableRel pairKeyLe := fun p q => instDecidableEqBool (keyLe p.1.data q.1.data) true

/-- Sort the rendered entries of an object by key. -/
def sortPairs (l : List (String × String)) : List (String × String) :=
  List.insertionSort pairKeyLe l

mutual
/-- `json.dumps(v, sort_keys=True, separators=(",", ":"))`: canonical JSON
serialization with object keys sorted and no whitespace, exactly as used by
`edit_spec` for the `parameters.image` field. -/
def jsonDumpsCanon : Json → String
  | .null => "null"
  | .bool true => "true"
  | .bool false => "false"
  | .int n => toString n
  | .str s => quoteJsonString s
  | .arr xs => "[" ++ String.intercalate "," (dumpsCanonList xs) ++ "]"
  | .obj kvs =>
      "\x7b" ++ String.intercalate ","
        ((sortPairs (dumpsCanonPairs kvs)).map
          (fun p => quoteJsonString p.1 ++ ":" ++ p.2)) ++ "\x7d"
termination_by structural j => j

/-- Serialization of the elements of a JSON array, in order. -/
def dumpsCanonList : List Json → List String
  | [] => []
  | x :: xs => jsonDumpsCanon x :: dumpsCanonList xs
termination_by structural l => l

/-- Render each object entry to (key, serialized value).  Sorting by key is
done on the rendered pairs, which agrees with sorting before rendering
because rendering leaves keys untouched. -/
def dumpsCanonPairs : List (String × Json) → List (String × String)
  | [] => []
  | (k, v) :: rest => (k, jsonDumpsCanon v) :: dumpsCanonPairs rest
termination_by structural l => l
end

example : jsonDumpsCanon (.obj [("tag", .str "v2"), ("repo", .str "x")]) =
    "\x7b\"repo\":\"x\",\"tag\":\"v2\"\x7d" := by rfl

/-! ### `json.loads`

A fuel-based recursive-descent parser for the JSON fragment these job
specs use (objects, arrays, strings with standard escapes, integers,
booleans, null).  Floats and astral-plane `\u` surrogate pairs do not occur
in job-definition specs and are not modelled.  Duplicate object keys keep
the last binding, as CPython's `json.loads` does. -/

/-- JSON whitespace skipping. -/
def skipWs : List Char → List Char
  | c :: rest =>
      if c = ' ' ∨ c = '\t' ∨ c = '\n' ∨ c = '\r' then skipWs rest else c :: rest
  | [] => []

/-- Value of one hex digit, if any. -/
def hexVal (c : Char) : Option Nat :=
  if '0' ≤ c ∧ c ≤ '9' then some (c.toNat - 48)
  else if 'a' ≤ c ∧ c ≤ 'f' then some (c.toNat - 87)
  else if 'A' ≤ c ∧ c ≤ 'F' then some (c.toNat - 55)
  else none

/-- Parse the body of a JSON string literal (after the opening quote),
returning the decoded characters and the input after the closing quote. -/
def parseStrChars : Nat → List Char → Option (List Char × List Char)
  | 0, _ => none
  | fuel + 1, cs =>
    match cs with
    | '"' :: rest => some ([], rest)
    | '\\' :: e :: rest =>
      if e = '"' ∨ e = '\\' ∨ e = '/' then
        (parseStrChars fuel rest).map (fun p => (e :: p.1, p.2))
      else if e = 'b' then (parseStrChars fuel rest).map (fun p => (Char.ofNat 8 :: p.1, p.2))
      else if e = 'f' then (parseStrChars fuel rest).map (fun p => (Char.ofNat 12 :: p.1, p.2))
      else if e = 'n' then (parseStrChars fuel rest).map (fun p => ('\n' :: p.1, p.2))
      else if e = 'r' then (parseStrChars fuel rest).map (fun p => ('\r' :: p.1, p.2))
      else if e = 't' then (parseStrChars fuel rest).map (fun p => ('\t' :: p.1, p.2))
      else if e = 'u' then
        match rest with
        | h1 :: h2 :: h3 :: h4 :: rest2 =>
          match hexVal h1, hexVal h2, hexVal h3, hexVal h4 with
          | some a, some b, some c, some d =>
            let n := a * 4096 + b * 256 + c * 16 + d
            if 55296 ≤ n ∧ n < 57344 then none
            else (parseStrChars fuel rest2).map (fun p => (Char.ofNat n :: p.1, p.2))
          | _, _, _, _ => none
        | _ => none
      else none
    | c :: rest =>
      if c.toNat < 32 then none
      else (parseStrChars fuel rest).map (fun p => (c :: p.1, p.2))
    | [] => none

/-- Parse a run of decimal digits with an accumulator. -/
def parseDigits : List Char → Nat → Nat × List Char
  | c :: rest, acc =>
      if c.isDigit then parseDigits rest (acc * 10 + (c.toNat - 48)) else (acc, c :: rest)
  | [], acc => (acc, [])

/-- Parse an integer literal (optional minus sign, at least one digit). -/
def parseIntLit (cs : List Char) : Option (Int × List Char) :=
  match cs with
  | '-' :: d :: rest =>
      if d.isDigit then
        let p := parseDigits (d :: rest) 0
        some (-(p.1 : Int), p.2)
      else none
  | d :: rest =>
      if d.isDigit then
        let p := parseDigits (d :: rest) 0
        some ((p.1 : Int), p.2)
      else none
  | [] => none

mutual
/-- Parse one JSON value; returns it with the remaining input. -/
def parseJsonF : Nat → List Char → Option (Json × List Char)
  | 0, _ => none
  | fuel + 1, cs =>
    match skipWs cs with
    | 'n' :: 'u' :: 'l' :: 'l' :: rest => some (.null, rest)
    | 't' :: 'r' :: 'u' :: 'e' :: rest => some (.bool true, rest)
    | 'f' :: 'a' :: 'l' :: 's' :: 'e' :: rest => some (.bool false, rest)
    | '"' :: rest => (parseStrChars fuel rest).map (fun p => (.str (String.mk p.1), p.2))
    | '[' :: rest =>
        (match skipWs rest with
         | ']' :: rest2 => some (.arr [], rest2)
         | rest2 => (parseElems fuel rest2).map (fun p => (.arr p.1, p.2)))
    | c :: rest =>
        if c = Char.ofNat 123 then
          match skipWs rest with
          | c2 :: rest2 =>
              if c2 = Char.ofNat 125 then some (.obj [], rest2)
              else
                (parseMembers fuel (c2 :: rest2)).map
                  (fun p => (.obj (p.1.foldl (fun acc kv => dictSet acc kv.1 kv.2) []), p.2))
          | [] => none
        else
          (parseIntLit (c :: rest)).map (fun p => (.int p.1, p.2))
    | [] => none
termination_by structural fuel => fuel

/-- Parse the elements of a non-empty array (after the opening bracket). -/
def parseElems : Nat → List Char → Option (List Json × List Char)
  | 0, _ => none
  | fuel + 1, cs =>
    match parseJsonF fuel cs with
    | none => none
    | some (v, rest) =>
      match skipWs rest with
      | ',' :: rest2 => (parseElems fuel rest2).map (fun p => (v :: p.1, p.2))
      | ']' :: rest2 => some ([v], rest2)
      | _ => none
termination_by structural fuel => fuel

/-- Parse the members of a non-empty object (after the opening brace). -/
def parseMembers : Nat → List Char → Option (List (String × Json) × List Char)
  | 0, _ => none
  | fuel + 1, cs =>
    match skipWs cs with
    | '"' :: rest =>
      match parseStrChars fuel rest with
      | none => none
      | some (kcs, rest1) =>
        match skipWs rest1 with
        | ':' :: rest2 =>
          match parseJsonF fuel rest2 with
          | none => none
          | some (v, rest3) =>
            match skipWs rest3 with
            | ',' :: rest4 =>
                (parseMembers fuel rest4).map (fun p => ((String.mk kcs, v) :: p.1, p.2))
            | c :: rest4 =>
                if c = Char.ofNat 125 then some ([(String.mk kcs, v)], rest4) else none
            | [] => none
        | _ => none
    | _ => none
termination_by structural fuel => fuel
end

/-- `json.loads`: parse a complete JSON document; anything else raises
(`ValueError` / `json.JSONDecodeError`). -/
def jsonLoads (s : String) : Except PyErr Json :=
  match parseJsonF (2 * s.length + 2) s.data with
  | some (v, rest) =>
      if skipWs rest = [] then .ok v else .error (.valueError "Extra data")
  | none => .error (.valueError "Expecting value")

example : jsonLoads "\x7b\"a\": [1, -2], \"b\": \"x\"\x7d" =
    .ok (.obj [("a", .arr [.int 1, .int (-2)]), ("b", .str "x")]) := by rfl

/-! ### The custom-resource protocol pieces of `register.py` -/

/-- The slice of the Lambda invocation context the handler reads. -/
structure Context where
  log_group_name : String
  log_stream_name : String

/-- `event["ResourceProperties"]`: each field is an `Option` because the
corresponding Python dict key may be absent (a lookup then raises
`KeyError`). -/
structure ResourceProperties where
  workflowName : Option String
  stepName : Option String
  image : Option Json
  spec : Option String

/-- The CloudFormation custom-resource event.  Fields are `Option`s: `none`
models an absent dict key, so `event["K"]` raises and `event.get("K")`
yields `None`. -/
structure Event where
  RequestType : Option String
  PhysicalResourceId : Option String
  StackId : Option String
  RequestId : Option String
  LogicalResourceId : Option String
  ResponseURL : Option String
  ResourceProperties : Option ResourceProperties

/-- The `Response` dataclass: the callback envelope.  Defaults mirror the
dataclass field defaults (`Status="FAILED"`, `Reason=""`, `NoEcho=False`,
`Data={}`). -/
structure Response where
  PhysicalResourceId : Option String
  StackId : String
  RequestId : String
  LogicalResourceId : String
  Status : String := "FAILED"
  Reason : String := ""
  NoEcho : Bool := false
  Data : List (String × Json) := []

/-- `Response.return_this(**kwargs)` = `self.Data.update(**kwargs)`, for the
one keyword argument the handler passes. -/
def Response.return_this (r : Response) (key : String) (v : Json) : Response :=
  { r with Data := dictSet r.Data key v }

/-- `dataclasses.asdict(response)`: the envelope as a JSON object, fields in
declaration order; a `None` `PhysicalResourceId` becomes JSON `null`. -/
def Response.asdict (r : Response) : Json :=
  .obj [("PhysicalResourceId",
          match r.PhysicalResourceId with
          | some s => .str s
          | none => .null),
        ("StackId", .str r.StackId),
        ("RequestId", .str r.RequestId),
        ("LogicalResourceId", .str r.LogicalResourceId),
        ("Status", .str r.Status),
        ("Reason", .str r.Reason),
        ("NoEcho", .bool r.NoEcho),
        ("Data", .obj r.Data)]

/-- The components of `urllib.parse.urlparse` that `respond` uses. -/
structure UrlParts where
  hostname : Option String
  path : String
  query : String

/-- Skip up to and past the first `"://"` of a URL. -/
def afterScheme : List Char → Option (List Char)
  | ':' :: '/' :: '/' :: rest => some rest
  | _ :: rest => afterScheme rest
  | [] => none

/-- `urllib.parse.urlparse`, for the `scheme://host/path?query` URLs that
CloudFormation presigned response URLs take: `hostname` is the netloc
lowercased without any port, `path` and `query` are split at the first
`?`.  A URL with no netloc gets `hostname = none`. -/
def urlparse (url : String) : UrlParts :=
  match afterScheme url.data with
  | none => { hostname := none, path := String.mk (url.data.takeWhile (· ≠ '?')), query := String.mk ((url.data.dropWhile (· ≠ '?')).drop 1) }
  | some rest =>
    let netloc := rest.takeWhile (· ≠ '/')
    let pathq := rest.drop netloc.length
    let p := pathq.takeWhile (· ≠ '?')
    let q := (pathq.dropWhile (· ≠ '?')).drop 1
    { hostname := if netloc = [] then none else some (String.mk ((netloc.takeWhile (· ≠ ':')).map Char.toLower)),
      path := String.mk p,
      query := String.mk q }

/-- The externally observable actions of one invocation, in order. -/
inductive Effect where
  | registerCall (spec : Json)
  | deregisterCall (jobDefinition : String)
  | httpPut (host : Option String) (pathQuery : String) (body : Json)

/-- `respond(url, body)`: one HTTPS PUT to the parsed callback URL, with
`path + "?" + query` as the request target and the serialized envelope as
the request body (the source serializes `body` with `json.dumps` just
before the PUT; the effect records the envelope value itself). -/
def respond (url : String) (body : Json) : Effect :=
  let u := urlparse url
  .httpPut u.hostname (u.path ++ "?" ++ u.query) body

/-- The AWS Batch client as an oracle: the outcome of
`register_job_definition(**spec)` (its `result["jobDefinitionArn"]` field on
success) and of `deregister_job_definition(jobDefinition=id)`. -/
structure BatchClient where
  register_job_definition : Json → Except PyErr String
  deregister_job_definition : String → Except PyErr Unit

/-- `d[k]` on a JSON object, raising `KeyError` when absent. -/
def getKey (kvs : List (String × Json)) (k : String) : Except PyErr Json :=
  match dictGet kvs k with
  | some v => .ok v
  | none => .error (.keyError k)

/-- Require a JSON value to be an object (Python raises a `TypeError`-class
exception when the handler indexes a non-dict). -/
def asObj (j : Json) (what : String) : Except PyErr (List (String × Json)) :=
  match j with
  | .obj kvs => .ok kvs
  | _ => .error (.typeError what)

/-- Require a JSON value to be an array (`+=` on a non-list raises). -/
def asArr (j : Json) (what : String) : Except PyErr (List Json) :=
  match j with
  | .arr xs => .ok xs
  | _ => .error (.typeError what)

/-- The four environment entries `edit_spec` appends, in order. -/
def fourEnvEntries (wf_name step_name region acct : String) : List Json :=
  [.obj [("name", .str "BC_WORKFLOW_NAME"), ("value", .str wf_name)],
   .obj [("name", .str "BC_STEP_NAME"), ("value", .str step_name)],
   .obj [("name", .str "AWS_DEFAULT_REGION"), ("value", .str region)],
   .obj [("name", .str "AWS_ACCOUNT_ID"), ("value", .str acct)]]

/-- Value-level semantics of `edit_spec(spec, wf_name, step_name, image)`:
the dictionary value it returns.  `region` and `acct` are the values of the
`REGION` and `ACCT_NUM` process environment variables it reads.  (The
store-level aliasing behavior of the same source lines is captured
separately by `edit_spec_heap`.) -/
def edit_spec (spec : Json) (wf_name step_name : String) (image : Json)
    (region acct : String) : Except PyErr Json := do
  let ret ← asObj spec "spec"
  let ret := dictSet ret "jobDefinitionName" (.str (wf_name ++ "_" ++ step_name))
  let cp ← getKey ret "containerProperties"
  let cpKvs ← asObj cp "containerProperties"
  let env ← getKey cpKvs "environment"
  let envXs ← asArr env "environment"
  let cpKvs := dictSet cpKvs "environment"
      (.arr (envXs ++ fourEnvEntries wf_name step_name region acct))
  let ret := dictSet ret "containerProperties" (.obj cpKvs)
  let params ← getKey ret "parameters"
  let paramKvs ← asObj params "parameters"
  let ret := dictSet ret "parameters"
      (.obj (dictSet paramKvs "image" (.str (jsonDumpsCanon image))))
  let tags ← getKey ret "tags"
  let tagKvs ← asObj tags "tags"
  let ret := dictSet ret "tags" (.obj (dictSet tagKvs "bclaw:workflow" (.str wf_name)))
  .ok (.obj ret)

/-- The `Reason` the responder writes on the exceptional path. -/
def diagReason (context : Context) : String :=
  "see log group " ++ context.log_group_name ++ " / log stream " ++ context.log_stream_name

/-- The envelope as `responder` constructs it on scope entry:
`PhysicalResourceId` from `event.get(...)`, the three ids copied verbatim,
every other field at its dataclass default (`Status := "FAILED"`). -/
def initResponse (event : Event) (stackId requestId logicalId : String)
    (no_echo : Bool) : Response :=
  { PhysicalResourceId := event.PhysicalResourceId
    StackId := stackId
    RequestId := requestId
    LogicalResourceId := logicalId
    NoEcho := no_echo }

/-- The `responder` context manager around a scope body.  The body receives
the envelope and reports the envelope as it left it, `some e` if it raised,
and the effects it performed.

Mapping to the source: building `Response(...)` raises `KeyError` before the
`try` if `StackId`, `RequestId` or `LogicalResourceId` is missing (so the
body never runs and nothing is delivered); on normal body exit the status is
forced to `SUCCESS`; on a raising body the exception is caught and `Reason`
is overwritten; the `finally` block looks up `event["ResponseURL"]` (raising
`KeyError` past the whole scope when absent) and issues the single PUT. -/
def responder (event : Event) (context : Context) (no_echo : Bool)
    (body : Response → Response × Option PyErr × List Effect) :
    Except PyErr Unit × List Effect :=
  match event.StackId with
  | none => (.error (.keyError "StackId"), [])
  | some stackId =>
    match event.RequestId with
    | none => (.error (.keyError "RequestId"), [])
    | some requestId =>
      match event.LogicalResourceId with
      | none => (.error (.keyError "LogicalResourceId"), [])
      | some logicalId =>
        let response := initResponse event stackId requestId logicalId no_echo
        let (resp1, bodyErr, trace) := body response
        let resp2 :=
          match bodyErr with
          | none => { resp1 with Status := "SUCCESS" }
          | some _ => { resp1 with Reason := diagReason context }
        match event.ResponseURL with
        | some url => (.ok (), trace ++ [respond url resp2.asdict])
        | none => (.error (.keyError "ResponseURL"), trace)

/-- The body of `lambda_handler`'s `with responder(...)` block: the
Create/Update/Delete dispatch. -/
def handler_body (event : Event) (batch : BatchClient) (region acct : String)
    (cfn_response : Response) : Response × Option PyErr × List Effect :=
  match event.RequestType with
  | none => (cfn_response, some (.keyError "RequestType"), [])
  | some rt =>
    if rt = "Create" ∨ rt = "Update" then
      match event.ResourceProperties with
      | none => (cfn_response, some (.keyError "ResourceProperties"), [])
      | some props =>
        match props.spec with
        | none => (cfn_response, some (.keyError "spec"), [])
        | some specStr =>
          match jsonLoads specStr with
          | .error e => (cfn_response, some e, [])
          | .ok spec0 =>
            match props.workflowName with
            | none => (cfn_response, some (.keyError "workflowName"), [])
            | some wf =>
              match props.stepName with
              | none => (cfn_response, some (.keyError "stepName"), [])
              | some st =>
                match props.image with
                | none => (cfn_response, some (.keyError "image"), [])
                | some img =>
                  match edit_spec spec0 wf st img region acct with
                  | .error e => (cfn_response, some e, [])
                  | .ok spec =>
                    match batch.register_job_definition spec with
                    | .error e => (cfn_response, some e, [.registerCall spec])
                    | .ok arn =>
                      (({ cfn_response with PhysicalResourceId := some arn
                         } : Response).return_this "Arn" (.str arn),
                       none, [.registerCall spec])
    else
      match event.PhysicalResourceId with
      | some job_def_id =>
        match batch.deregister_job_definition job_def_id with
        | .ok _ => (cfn_response, none, [.deregisterCall job_def_id])
        | .error _ => (cfn_response, none, [.deregisterCall job_def_id])
      | none => (cfn_response, none, [])

/-- `lambda_handler(event, context)`, with the batch client's API outcomes
and the two environment variables supplied as oracles.  The result is the
exception leaving the invocation (if any) plus the ordered external effects. -/
def lambda_handler (event : Event) (context : Context) (batch : BatchClient)
    (region acct : String) : Except PyErr Unit × List Effect :=
  responder event context false (handler_body event batch region acct)

/-- Is an effect the callback HTTP PUT? -/
def isHttpPut : Effect → Bool
  | .httpPut _ _ _ => true
  | _ => false

/-- Is an effect a deregister-job-definition API call? -/
def isDeregister : Effect → Bool
  | .deregisterCall _ => true
  | _ => false

/-- Number of callback PUTs in a trace. -/
def countPuts (tr : List Effect) : Nat := (tr.filter isHttpPut).length

/-- The envelopes delivered by the PUTs of a trace, in order. -/
def deliveredBodies (tr : List Effect) : List Json :=
  tr.filterMap (fun e =>
    match e with
    | .httpPut _ _ body => some body
    | _ => none)

/-! ### Store-level semantics of `edit_spec`

`spec.copy()` is a shallow copy: the copied dict holds the same references
to the nested `containerProperties` / `parameters` / `tags` dicts and the
`environment` list as the caller's original.  To reason about what the
caller's spec looks like after the call, the same source lines are embedded
once more over an explicit heap of Python objects. -/

/-- A Python runtime value: immutable primitives, or a reference to a
container on the heap. -/
inductive PVal where
  | vnull
  | vbool (b : Bool)
  | vint (n : Int)
  | vstr (s : String)
  | ref (a : Nat)
  deriving DecidableEq, Repr

/-- A heap container: a dict or a list. -/
inductive PObj where
  | dict (kvs : List (String × PVal))
  | list (xs : List PVal)
  deriving DecidableEq, Repr

/-- The heap: address `a` holds `h[a]`; allocation appends. -/
abbrev Heap := List PObj

/-- Dereference an address. -/
def heapGet (h : Heap) (a : Nat) : Option PObj := h[a]?

/-- Overwrite the object at an (allocated) address. -/
def heapSet (h : Heap) (a : Nat) (o : PObj) : Heap := h.set a o

/-- Allocate a fresh object, returning the new heap and its address. -/
def alloc (h : Heap) (o : PObj) : Heap × Nat := (h ++ [o], h.length)

/-- Resolve the elements of a list object with the resolver for one value. -/
def resolveList (f : PVal → Option Json) : List PVal → Option (List Json)
  | [] => some []
  | v :: vs =>
    match f v, resolveList f vs with
    | some j, some js => some (j :: js)
    | _, _ => none

/-- Resolve the entries of a dict object with the resolver for one value. -/
def resolveEntries (f : PVal → Option Json) :
    List (String × PVal) → Option (List (String × Json))
  | [] => some []
  | (k, v) :: rest =>
    match f v, resolveEntries f rest with
    | some j, some js => some ((k, j) :: js)
    | _, _ => none

/-- The value of a Python object graph as a JSON tree (what the caller
observes of its spec), up to a reference depth of `fuel`. -/
def resolveV (h : Heap) : Nat → PVal → Option Json
  | _, .vnull => some .null
  | _, .vbool b => some (.bool b)
  | _, .vint n => some (.int n)
  | _, .vstr s => some (.str s)
  | 0, .ref _ => none
  | fuel + 1, .ref a =>
    match heapGet h a with
    | some (.dict kvs) => (resolveEntries (resolveV h fuel) kvs).map .obj
    | some (.list xs) => (resolveList (resolveV h fuel) xs).map .arr
    | none => none

/-- Store-level embedding of the same `edit_spec` source lines: `specA` is
the address of the caller's spec dict.  The shallow copy shares every nested
reference; `+=` extends the shared environment list in place and stores the
same reference back; the `parameters` / `tags` item assignments mutate the
shared dicts in place. -/
def edit_spec_heap (h : Heap) (specA : Nat) (wf_name step_name : String)
    (image : Json) (region acct : String) : Except PyErr (Heap × Nat) := do
  let specKvs ←
    match heapGet h specA with
    | some (.dict kvs) => Except.ok kvs
    | _ => Except.error (.typeError "copy")
  let (h, retA) := alloc h (.dict specKvs)
  let retKvs := dictSet specKvs "jobDefinitionName" (.vstr (wf_name ++ "_" ++ step_name))
  let h := heapSet h retA (.dict retKvs)
  let cpV ←
    match dictGet retKvs "containerProperties" with
    | some v => Except.ok v
    | none => Except.error (.keyError "containerProperties")
  let cpA ←
    match cpV with
    | .ref a => Except.ok a
    | _ => Except.error (.typeError "containerProperties")
  let cpKvs ←
    match heapGet h cpA with
    | some (.dict kvs) => Except.ok kvs
    | _ => Except.error (.typeError "containerProperties")
  let envV ←
    match dictGet cpKvs "environment" with
    | some v => Except.ok v
    | none => Except.error (.keyError "environment")
  let envA ←
    match envV with
    | .ref a => Except.ok a
    | _ => Except.error (.typeError "environment")
  let envXs ←
    match heapGet h envA with
    | some (.list xs) => Except.ok xs
    | _ => Except.error (.typeError "environment")
  let (h, e1A) := alloc h (.dict [("name", .vstr "BC_WORKFLOW_NAME"), ("value", .vstr wf_name)])
  let (h, e2A) := alloc h (.dict [("name", .vstr "BC_STEP_NAME"), ("value", .vstr step_name)])
  let (h, e3A) := alloc h (.dict [("name", .vstr "AWS_DEFAULT_REGION"), ("value", .vstr region)])
  let (h, e4A) := alloc h (.dict [("name", .vstr "AWS_ACCOUNT_ID"), ("value", .vstr acct)])
  let h := heapSet h envA (.list (envXs ++ [.ref e1A, .ref e2A, .ref e3A, .ref e4A]))
  let h := heapSet h cpA (.dict (dictSet cpKvs "environment" (.ref envA)))
  let pV ←
    match dictGet retKvs "parameters" with
    | some v => Except.ok v
    | none => Except.error (.keyError "parameters")
  let pA ←
    match pV with
    | .ref a => Except.ok a
    | _ => Except.error (.typeError "parameters")
  let pKvs ←
    match heapGet h pA with
    | some (.dict kvs) => Except.ok kvs
    | _ => Except.error (.typeError "parameters")
  let h := heapSet h pA (.dict (dictSet pKvs "image" (.vstr (jsonDumpsCanon image))))
  let tV ←
    match dictGet retKvs "tags" with
    | some v => Except.ok v
    | none => Except.error (.keyError "tags")
  let tA ←
    match tV with
    | .ref a => Except.ok a
    | _ => Except.error (.typeError "tags")
  let tKvs ←
    match heapGet h tA with
    | some (.dict kvs) => Except.ok kvs
    | _ => Except.error (.typeError "tags")
  let h := heapSet h tA (.dict (dictSet tKvs "bclaw:workflow" (.vstr wf_name)))
  .ok (h, retA)

/-- Observation probe on a resolved spec value: the length of its
`containerProperties.environment` list. -/
def envLenOfSpec (j : Option Json) : Option Nat :=
  match j with
  | some (.obj kvs) =>
    match dictGet kvs "containerProperties" with
    | some (.obj cp) =>
      match dictGet cp "environment" with
      | some (.arr xs) => some xs.length
      | _ => none
    | _ => none
  | _ => none

mutual
/-- Syntactic equality test on JSON values (used as a value-equality probe
on resolved object graphs). -/
def jsonBeq : Json → Json → Bool
  | .null, .null => true
  | .bool a, .bool b => a == b
  | .int a, .int b => a == b
  | .str a, .str b => a == b
  | .arr xs, .arr ys => jsonBeqList xs ys
  | .obj xs, .obj ys => jsonBeqPairs xs ys
  | _, _ => false
termination_by structural a => a

/-- Elementwise equality of JSON arrays. -/
def jsonBeqList : List Json → List Json → Bool
  | [], [] => true
  | x :: xs, y :: ys => jsonBeq x y && jsonBeqList xs ys
  | _, _ => false
termination_by structural l => l

/-- Entrywise equality of JSON objects (same keys in the same order). -/
def jsonBeqPairs : List (String × Json) → List (String × Json) → Bool
  | [], [] => true
  | (k, v) :: xs, (k2, v2) :: ys => k == k2 && jsonBeq v v2 && jsonBeqPairs xs ys
  | _, _ => false
termination_by structural l => l
end

/-- Equality probe on two resolution results. -/
def optJsonBeq : Option Json → Option Json → Bool
  | some a, some b => jsonBeq a b
  | none, none => true
  | _, _ => false

/-! ### Dictionary lemmas -/

/-- Unfolding of `dictGet` on a cons cell. -/
theorem dictGet_cons {α : Type} (p : String × α) (rest : List (String × α)) (k : String) :
    dictGet (p :: rest) k = if p.1 = k then some p.2 else dictGet rest k := by
  by_cases hp : p.1 = k <;> simp [dictGet, List.find?_cons, hp]

/-- Lookup after setting the same key. -/
theorem dictGet_dictSet_self {α : Type} (kvs : List (String × α)) (k : String) (v : α) :
    dictGet (dictSet kvs k v) k = some v := by
  induction kvs with
  | nil => simp [dictSet, dictGet_cons]
  | cons p rest ih =>
    by_cases hp : p.1 = k
    · simp [dictSet, hp, dictGet_cons]
    · simp [dictSet, hp, dictGet_cons, ih]

/-- Lookup of a different key after setting. -/
theorem dictGet_dictSet_ne {α : Type} (kvs : List (String × α)) (k k' : String) (v : α)
    (h : k' ≠ k) : dictGet (dictSet kvs k v) k' = dictGet kvs k' := by
  induction kvs with
  | nil => simp [dictSet, dictGet_cons, dictGet, Ne.symm h]
  | cons p rest ih =>
    by_cases hp : p.1 = k
    · have hpk' : p.1 ≠ k' := by rw [hp]; exact Ne.symm h
      simp [dictSet, hp, dictGet_cons, Ne.symm h, hpk']
    · simp [dictSet, hp, dictGet_cons, ih]

/-! ### Trace helpers -/

/-- `countPuts` distributes over concatenation. -/
theorem countPuts_append (a b : List Effect) :
    countPuts (a ++ b) = countPuts a + countPuts b := by
  simp [countPuts, List.filter_append]

/-- A `respond` effect is a callback PUT. -/
theorem countPuts_respond (url : String) (body : Json) :
    countPuts [respond url body] = 1 := rfl

/-- The dispatch body performs no callback PUT itself: its traces are empty
or a single batch API call. -/
theorem handler_body_no_puts (event : Event) (batch : BatchClient)
    (region acct : String) (r : Response) :
    countPuts (handler_body event batch region acct r).2.2 = 0 := by
  unfold handler_body
  repeat' split <;> try rfl

/-! ### C5 / C4: the responder's status lifecycle -/

/-- C5: when the responder's scope body completes without raising, the
delivered envelope's `Status` is forced to `SUCCESS` at scope exit
(overwriting whatever the body set), and the envelope handed to the body was
constructed with `Status` defaulted to `FAILED`. -/
theorem responder_status_lifecycle
    (event : Event) (context : Context) (no_echo : Bool)
    (body : Response → Response × Option PyErr × List Effect)
    (stackId requestId logicalId url : String)
    (hS : event.StackId = some stackId) (hR : event.RequestId = some requestId)
    (hL : event.LogicalResourceId = some logicalId) (hU : event.ResponseURL = some url)
    (resp1 : Response) (trace : List Effect)
    (hbody : body (initResponse event stackId requestId logicalId no_echo) =
      (resp1, none, trace)) :
    (initResponse event stackId requestId logicalId no_echo).Status = "FAILED" ∧
    responder event context no_echo body =
      (.ok (), trace ++ [respond url (Response.asdict { resp1 with Status := "SUCCESS" })]) := by
  refine ⟨rfl, ?_⟩
  simp [responder, hS, hR, hL, hU, hbody]

/-- C4: when the responder's scope body raises, the exception is caught and
not re-raised (`.ok ()` leaves the scope), the delivered envelope keeps the
`Status` the body left (the `FAILED` default unless the body changed it),
and `Reason` is overwritten with the fixed log-group/log-stream diagnostic —
the right-hand side mentions the exception `e` nowhere, so the raw internal
error never reaches the delivered `Reason`. -/
theorem responder_exception_swallowed
    (event : Event) (context : Context) (no_echo : Bool)
    (body : Response → Response × Option PyErr × List Effect)
    (stackId requestId logicalId url : String)
    (hS : event.StackId = some stackId) (hR : event.RequestId = some requestId)
    (hL : event.LogicalResourceId = some logicalId) (hU : event.ResponseURL = some url)
    (resp1 : Response) (e : PyErr) (trace : List Effect)
    (hbody : body (initResponse event stackId requestId logicalId no_echo) =
      (resp1, some e, trace)) :
    responder event context no_echo body =
      (.ok (), trace ++ [respond url (Response.asdict { resp1 with Reason := diagReason context })]) ∧
    ({ resp1 with Reason := diagReason context } : Response).Reason =
      "see log group " ++ context.log_group_name ++ " / log stream " ++ context.log_stream_name ∧
    ({ resp1 with Reason := diagReason context } : Response).Status = resp1.Status := by
  refine ⟨?_, rfl, rfl⟩
  simp [responder, hS, hR, hL, hU, hbody]

/-! ### C1 / C10: callback delivery -/

/-- C1: whenever the event carries `StackId`, `RequestId`,
`LogicalResourceId` and `ResponseURL`, one `lambda_handler` invocation
issues exactly one callback HTTP PUT (to the parsed `ResponseURL`),
whatever the request type, the batch API outcomes, or any exception raised
inside the guarded scope; the invocation itself completes without raising. -/
theorem lambda_handler_exactly_one_callback
    (event : Event) (context : Context) (batch : BatchClient) (region acct : String)
    (stackId requestId logicalId url : String)
    (hS : event.StackId = some stackId) (hR : event.RequestId = some requestId)
    (hL : event.LogicalResourceId = some logicalId) (hU : event.ResponseURL = some url) :
    (lambda_handler event context batch region acct).1 = .ok () ∧
    countPuts (lambda_handler event context batch region acct).2 = 1 := by
  have hnp := handler_body_no_puts event batch region acct
      (initResponse event stackId requestId logicalId false)
  unfold lambda_handler responder
  rw [hS, hR, hL]
  rcases hbody : handler_body event batch region acct
      (initResponse event stackId requestId logicalId false) with ⟨resp1, bodyErr, trace⟩
  rw [hbody] at hnp
  cases bodyErr <;>
    simp [hU, hbody, countPuts_append, countPuts_respond] <;>
    simpa [countPuts] using hnp

/-- C10: the single-callback guarantee needs the four protocol fields.  If
`StackId`, `RequestId` or `LogicalResourceId` is missing, building the
envelope raises before the guarded scope is entered: no effect at all is
performed (in particular no callback) and a `KeyError` leaves the
invocation.  If only `ResponseURL` is missing, the body runs but the lookup
in the finalization step raises: the `KeyError` propagates out and no
callback is delivered. -/
theorem lambda_handler_missing_fields
    (event : Event) (context : Context) (batch : BatchClient) (region acct : String) :
    (event.StackId = none ∨ event.RequestId = none ∨ event.LogicalResourceId = none →
      (lambda_handler event context batch region acct).2 = [] ∧
      ∃ key, (lambda_handler event context batch region acct).1 = .error (.keyError key)) ∧
    (∀ stackId requestId logicalId,
      event.StackId = some stackId → event.RequestId = some requestId →
      event.LogicalResourceId = some logicalId → event.ResponseURL = none →
      (lambda_handler event context batch region acct).1 = .error (.keyError "ResponseURL") ∧
      countPuts (lambda_handler event context batch region acct).2 = 0) := by
  constructor
  · intro hmiss
    rcases hmiss with h | h | h
    · simp [lambda_handler, responder, h]
    · cases hS : event.StackId <;> simp [lambda_handler, responder, hS, h]
    · cases hS : event.StackId with
      | none => simp [lambda_handler, responder, hS]
      | some s =>
        cases hR : event.RequestId with
        | none => simp [lambda_handler, responder, hS, hR]
        | some r => simp [lambda_handler, responder, hS, hR, h]
  · intro stackId requestId logicalId hS hR hL hU
    have hnp := handler_body_no_puts event batch region acct
        (initResponse event stackId requestId logicalId false)
    unfold lambda_handler responder
    rw [hS, hR, hL]
    rcases hbody : handler_body event batch region acct
        (initResponse event stackId requestId logicalId false) with ⟨resp1, bodyErr, trace⟩
    rw [hbody] at hnp
    cases bodyErr <;> simp [hU, hbody] <;> simpa [countPuts] using hnp

/-- Probe: a field of a delivered (JSON-object) envelope. -/
def bodyField (b : Json) (k : String) : Option Json :=
  match b with
  | .obj kvs => dictGet kvs k
  | _ => none

/-! ### C2 / C6: the Create-Update-Delete dispatch -/

/-- C2: for a Delete event (request type neither `Create` nor `Update`):
with a `PhysicalResourceId` the deregister API is called with that id and —
whatever that call's outcome, including failure — the single delivered
envelope has `Status = SUCCESS`; without a `PhysicalResourceId` the
deregister API is never invoked and the delivered envelope still has
`Status = SUCCESS`.  The batch client is universally quantified, so the
failing-deregister case is covered. -/
theorem lambda_handler_delete_path
    (event : Event) (context : Context) (batch : BatchClient) (region acct : String)
    (stackId requestId logicalId url rt : String)
    (hS : event.StackId = some stackId) (hR : event.RequestId = some requestId)
    (hL : event.LogicalResourceId = some logicalId) (hU : event.ResponseURL = some url)
    (hRT : event.RequestType = some rt)
    (hC : rt ≠ "Create") (hUp : rt ≠ "Update") :
    (∀ job_def_id, event.PhysicalResourceId = some job_def_id →
      Effect.deregisterCall job_def_id ∈ (lambda_handler event context batch region acct).2 ∧
      (deliveredBodies (lambda_handler event context batch region acct).2).map
        (fun b => bodyField b "Status") = [some (.str "SUCCESS")]) ∧
    (event.PhysicalResourceId = none →
      (∀ job_def_id,
        Effect.deregisterCall job_def_id ∉ (lambda_handler event context batch region acct).2) ∧
      (deliveredBodies (lambda_handler event context batch region acct).2).map
        (fun b => bodyField b "Status") = [some (.str "SUCCESS")]) := by
  constructor
  · intro job_def_id hP
    cases hdereg : batch.deregister_job_definition job_def_id <;>
      simp [lambda_handler, responder, handler_body, hS, hR, hL, hU, hRT, hC, hUp, hP,
        hdereg, deliveredBodies, respond, bodyField, Response.asdict, dictGet, List.find?]
  · intro hP
    constructor
    · intro job_def_id
      simp [lambda_handler, responder, handler_body, hS, hR, hL, hU, hRT, hC, hUp, hP,
        respond]
    · simp [lambda_handler, responder, handler_body, hS, hR, hL, hU, hRT, hC, hUp, hP,
        deliveredBodies, respond, bodyField, Response.asdict, dictGet, List.find?]

/-- C6: for a Create or Update event whose spec parses, edits and registers
successfully, the invocation delivers exactly the envelope whose `Status` is
`SUCCESS`, whose `PhysicalResourceId` is the definition ARN returned by the
register call, and whose `Data` binds `Arn` to that same ARN. -/
theorem lambda_handler_create_update_success
    (event : Event) (context : Context) (batch : BatchClient) (region acct : String)
    (stackId requestId logicalId url rt : String)
    (props : ResourceProperties) (specStr : String) (spec0 : Json)
    (wf st : String) (img spec : Json) (arn : String)
    (hS : event.StackId = some stackId) (hR : event.RequestId = some requestId)
    (hL : event.LogicalResourceId = some logicalId) (hU : event.ResponseURL = some url)
    (hRT : event.RequestType = some rt) (hrt : rt = "Create" ∨ rt = "Update")
    (hProps : event.ResourceProperties = some props)
    (hspecStr : props.spec = some specStr)
    (hparse : jsonLoads specStr = .ok spec0)
    (hwf : props.workflowName = some wf)
    (hst : props.stepName = some st)
    (himg : props.image = some img)
    (hedit : edit_spec spec0 wf st img region acct = .ok spec)
    (hreg : batch.register_job_definition spec = .ok arn) :
    lambda_handler event context batch region acct =
      (.ok (), [.registerCall spec,
        respond url (Response.asdict
          { PhysicalResourceId := some arn, StackId := stackId, RequestId := requestId,
            LogicalResourceId := logicalId, Status := "SUCCESS", Reason := "",
            NoEcho := false, Data := [("Arn", .str arn)] })]) ∧
    (deliveredBodies (lambda_handler event context batch region acct).2).map
      (fun b => bodyField b "Status") = [some (.str "SUCCESS")] ∧
    (deliveredBodies (lambda_handler event context batch region acct).2).map
      (fun b => bodyField b "PhysicalResourceId") = [some (.str arn)] ∧
    (deliveredBodies (lambda_handler event context batch region acct).2).map
      (fun b => (bodyField b "Data").bind (fun d => bodyField d "Arn")) =
      [some (.str arn)] := by
  rcases hrt with h | h <;> subst h <;>
    refine ⟨?_, ?_, ?_, ?_⟩ <;>
      simp [lambda_handler, responder, handler_body, Response.return_this, initResponse,
        hS, hR, hL, hU, hRT, hProps, hspecStr, hparse, hwf, hst, himg, hedit, hreg,
        deliveredBodies, respond, bodyField, Response.asdict, dictGet, dictSet, List.find?]

/-! ### The key order used by `sort_keys=True` -/

/-- `keyLe` is total. -/
theorem keyLe_total (as bs : List Char) : keyLe as bs = true ∨ keyLe bs as = true := by
  induction as generalizing bs with
  | nil => left; rfl
  | cons a as ih =>
    cases bs with
    | nil => right; rfl
    | cons b bs =>
      rcases lt_trichotomy a b with h | h | h
      · left; simp [keyLe, h]
      · subst h
        rcases ih bs with h2 | h2
        · left; simp [keyLe, lt_irrefl, h2]
        · right; simp [keyLe, lt_irrefl, h2]
      · right; simp [keyLe, h]

/-- `keyLe` is transitive. -/
theorem keyLe_trans (as bs cs : List Char) (h1 : keyLe as bs = true)
    (h2 : keyLe bs cs = true) : keyLe as cs = true := by
  induction as generalizing bs cs with
  | nil => rfl
  | cons a as ih =>
    cases bs with
    | nil => simp [keyLe] at h1
    | cons b bs =>
      cases cs with
      | nil => simp [keyLe] at h2
      | cons c cs =>
        by_cases hab : a < b
        · by_cases hbc : b < c
          · have : a < c := lt_trans hab hbc
            simp [keyLe, this]
          · by_cases hcb : c < b
            · simp [keyLe, hbc, hcb] at h2
            · have hbceq : b = c := le_antisymm (not_lt.mp hcb) (not_lt.mp hbc)
              subst hbceq
              simp [keyLe, hab]
        · by_cases hba : b < a
          · simp [keyLe, hab, hba] at h1
          · have habeq : a = b := le_antisymm (not_lt.mp hba) (not_lt.mp hab)
            subst habeq
            simp only [keyLe, lt_irrefl, if_false] at h1
            by_cases hac : a < c
            · simp [keyLe, hac]
            · by_cases hca : c < a
              · simp [keyLe, hac, hca] at h2
              · simp only [keyLe, hac, hca, if_false] at h2 ⊢
                exact ih bs cs h1 h2

/-- `keyLe` is antisymmetric. -/
theorem keyLe_antisymm (as bs : List Char) (h1 : keyLe as bs = true)
    (h2 : keyLe bs as = true) : as = bs := by
  induction as generalizing bs with
  | nil =>
    cases bs with
    | nil => rfl
    | cons b bs => simp [keyLe] at h2
  | cons a as ih =>
    cases bs with
    | nil => simp [keyLe] at h1
    | cons b bs =>
      by_cases hab : a < b
      · simp [keyLe, hab, asymm hab] at h2
      · by_cases hba : b < a
        · simp [keyLe, hab, hba] at h1
        · have habeq : a = b := le_antisymm (not_lt.mp hba) (not_lt.mp hab)
          subst habeq
          simp only [keyLe, lt_irrefl, if_false] at h1 h2
          rw [ih bs h1 h2]

instance : IsTotal (String × String) pairKeyLe :=
  ⟨fun p q => keyLe_total p.1.data q.1.data⟩

instance : IsTrans (String × String) pairKeyLe :=
  ⟨fun p q r => keyLe_trans p.1.data q.1.data r.1.data⟩

/-- The strict version of the key order: `keyLe` and distinct keys. -/
def pairKeyLt (p q : String × String) : Prop := pairKeyLe p q ∧ p.1 ≠ q.1

instance : IsAntisymm (String × String) pairKeyLt :=
  ⟨fun _ _ h1 h2 => absurd (String.ext (keyLe_antisymm _ _ h1.1 h2.1)) h1.2⟩

/-- `dumpsCanonPairs` is a map over the entries. -/
theorem dumpsCanonPairs_eq_map (kvs : List (String × Json)) :
    dumpsCanonPairs kvs = kvs.map (fun p => (p.1, jsonDumpsCanon p.2)) := by
  induction kvs with
  | nil => rfl
  | cons p rest ih =>
    cases p
    simp [dumpsCanonPairs, ih]

/-- Sorting rendered entries by key is invariant under permutation of the
entries when the keys are distinct. -/
theorem sortPairs_eq_of_perm (l1 l2 : List (String × String)) (hp : l1.Perm l2)
    (hnd : (l1.map Prod.fst).Nodup) : sortPairs l1 = sortPairs l2 := by
  have hperm : (sortPairs l1).Perm (sortPairs l2) :=
    (List.perm_insertionSort pairKeyLe l1).trans
      (hp.trans (List.perm_insertionSort pairKeyLe l2).symm)
  have hnd1 : ((sortPairs l1).map Prod.fst).Nodup :=
    (((List.perm_insertionSort pairKeyLe l1).map Prod.fst).nodup_iff).mpr hnd
  have hnd2 : ((sortPairs l2).map Prod.fst).Nodup :=
    ((hperm.map Prod.fst).nodup_iff).mp hnd1
  have hne1 : (sortPairs l1).Pairwise (fun p q => p.1 ≠ q.1) := List.pairwise_map.mp hnd1
  have hne2 : (sortPairs l2).Pairwise (fun p q => p.1 ≠ q.1) := List.pairwise_map.mp hnd2
  have hlt1 : (sortPairs l1).Sorted pairKeyLt :=
    (List.sorted_insertionSort pairKeyLe l1).and hne1
  have hlt2 : (sortPairs l2).Sorted pairKeyLt :=
    (List.sorted_insertionSort pairKeyLe l2).and hne2
  exact List.eq_of_perm_of_sorted hperm hlt1 hlt2

/-- The canonical serialization of an object depends only on the key-value
binding set, not on the entry order, when keys are distinct. -/
theorem jsonDumpsCanon_obj_perm (kvs1 kvs2 : List (String × Json))
    (hp : kvs1.Perm kvs2) (hnd : (kvs1.map Prod.fst).Nodup) :
    jsonDumpsCanon (.obj kvs1) = jsonDumpsCanon (.obj kvs2) := by
  have h1 : (dumpsCanonPairs kvs1).Perm (dumpsCanonPairs kvs2) := by
    rw [dumpsCanonPairs_eq_map, dumpsCanonPairs_eq_map]
    exact hp.map _
  have hnd' : ((dumpsCanonPairs kvs1).map Prod.fst).Nodup := by
    rw [dumpsCanonPairs_eq_map, List.map_map]
    simpa [Function.comp] using hnd
  simp only [jsonDumpsCanon]
  rw [sortPairs_eq_of_perm _ _ h1 hnd']

/-! ### C7 / C8 / C9: the spec transform -/

/-- Full computation of `edit_spec` on a valid spec: a spec object whose
`containerProperties` is an object with an `environment` list and which has
`parameters` and `tags` objects. -/
theorem edit_spec_eq (specKvs cpKvs paramKvs tagKvs : List (String × Json))
    (envXs : List Json) (wf st : String) (img : Json) (region acct : String)
    (hcp : dictGet specKvs "containerProperties" = some (.obj cpKvs))
    (henv : dictGet cpKvs "environment" = some (.arr envXs))
    (hparams : dictGet specKvs "parameters" = some (.obj paramKvs))
    (htags : dictGet specKvs "tags" = some (.obj tagKvs)) :
    edit_spec (.obj specKvs) wf st img region acct =
      .ok (.obj (dictSet (dictSet (dictSet
        (dictSet specKvs "jobDefinitionName" (.str (wf ++ "_" ++ st)))
        "containerProperties"
          (.obj (dictSet cpKvs "environment"
            (.arr (envXs ++ fourEnvEntries wf st region acct)))))
        "parameters" (.obj (dictSet paramKvs "image" (.str (jsonDumpsCanon img)))))
        "tags" (.obj (dictSet tagKvs "bclaw:workflow" (.str wf))))) := by
  have h1 : dictGet (dictSet specKvs "jobDefinitionName" (Json.str (wf ++ "_" ++ st)))
      "containerProperties" = some (.obj cpKvs) := by
    rw [dictGet_dictSet_ne _ _ _ _ (by decide)]
    exact hcp
  have h2 : dictGet (dictSet
      (dictSet specKvs "jobDefinitionName" (Json.str (wf ++ "_" ++ st)))
      "containerProperties"
        (Json.obj (dictSet cpKvs "environment"
          (.arr (envXs ++ fourEnvEntries wf st region acct))))) "parameters" =
      some (.obj paramKvs) := by
    rw [dictGet_dictSet_ne _ _ _ _ (by decide), dictGet_dictSet_ne _ _ _ _ (by decide)]
    exact hparams
  have h3 : dictGet (dictSet (dictSet
      (dictSet specKvs "jobDefinitionName" (Json.str (wf ++ "_" ++ st)))
      "containerProperties"
        (Json.obj (dictSet cpKvs "environment"
          (.arr (envXs ++ fourEnvEntries wf st region acct)))))
      "parameters" (Json.obj (dictSet paramKvs "image" (.str (jsonDumpsCanon img)))))
      "tags" = some (.obj tagKvs) := by
    rw [dictGet_dictSet_ne _ _ _ _ (by decide), dictGet_dictSet_ne _ _ _ _ (by decide),
      dictGet_dictSet_ne _ _ _ _ (by decide)]
    exact htags
  simp [edit_spec, getKey, asObj, asArr, bind, Except.bind, h1, henv, h2, h3]

/-- C8: on every valid spec, the output's environment list is the input's
environment entries, in their original order, followed by exactly the four
entries `BC_WORKFLOW_NAME`, `BC_STEP_NAME`, `AWS_DEFAULT_REGION`,
`AWS_ACCOUNT_ID` (bound to the workflow name, the step name, and the
`REGION` / `ACCT_NUM` environment variables), in that fixed order. -/
theorem edit_spec_env_append (specKvs cpKvs paramKvs tagKvs : List (String × Json))
    (envXs : List Json) (wf st : String) (img : Json) (region acct : String)
    (hcp : dictGet specKvs "containerProperties" = some (.obj cpKvs))
    (henv : dictGet cpKvs "environment" = some (.arr envXs))
    (hparams : dictGet specKvs "parameters" = some (.obj paramKvs))
    (htags : dictGet specKvs "tags" = some (.obj tagKvs)) :
    ∃ outKvs, edit_spec (.obj specKvs) wf st img region acct = .ok (.obj outKvs) ∧
      (dictGet outKvs "containerProperties").bind (fun cp => bodyField cp "environment") =
        some (.arr (envXs ++
          [.obj [("name", .str "BC_WORKFLOW_NAME"), ("value", .str wf)],
           .obj [("name", .str "BC_STEP_NAME"), ("value", .str st)],
           .obj [("name", .str "AWS_DEFAULT_REGION"), ("value", .str region)],
           .obj [("name", .str "AWS_ACCOUNT_ID"), ("value", .str acct)]])) := by
  refine ⟨_, edit_spec_eq specKvs cpKvs paramKvs tagKvs envXs wf st img region acct
    hcp henv hparams htags, ?_⟩
  rw [dictGet_dictSet_ne _ _ _ _ (by decide), dictGet_dictSet_ne _ _ _ _ (by decide),
    dictGet_dictSet_self]
  simp [bodyField, dictGet_dictSet_self, fourEnvEntries]

/-- C9: on every valid spec, the output's `jobDefinitionName` is the literal
concatenation `wf ++ "_" ++ st`, its `tags` bind `bclaw:workflow` to the
workflow name, and every other tag entry of the input is preserved
unchanged. -/
theorem edit_spec_name_and_tags (specKvs cpKvs paramKvs tagKvs : List (String × Json))
    (envXs : List Json) (wf st : String) (img : Json) (region acct : String)
    (hcp : dictGet specKvs "containerProperties" = some (.obj cpKvs))
    (henv : dictGet cpKvs "environment" = some (.arr envXs))
    (hparams : dictGet specKvs "parameters" = some (.obj paramKvs))
    (htags : dictGet specKvs "tags" = some (.obj tagKvs)) :
    ∃ outKvs tagOut, edit_spec (.obj specKvs) wf st img region acct = .ok (.obj outKvs) ∧
      dictGet outKvs "jobDefinitionName" = some (.str (wf ++ "_" ++ st)) ∧
      dictGet outKvs "tags" = some (.obj tagOut) ∧
      dictGet tagOut "bclaw:workflow" = some (.str wf) ∧
      (∀ k, k ≠ "bclaw:workflow" → dictGet tagOut k = dictGet tagKvs k) := by
  refine ⟨_, dictSet tagKvs "bclaw:workflow" (.str wf),
    edit_spec_eq specKvs cpKvs paramKvs tagKvs envXs wf st img region acct
      hcp henv hparams htags, ?_, ?_, ?_, ?_⟩
  · rw [dictGet_dictSet_ne _ _ _ _ (by decide), dictGet_dictSet_ne _ _ _ _ (by decide),
      dictGet_dictSet_ne _ _ _ _ (by decide), dictGet_dictSet_self]
  · rw [dictGet_dictSet_self]
  · rw [dictGet_dictSet_self]
  · intro k hk
    exact dictGet_dictSet_ne _ _ _ _ hk

/-- C7: on every valid spec, the output's `parameters.image` is the
canonical (`sort_keys=True`, `separators=(",", ":")`) JSON serialization of
the image value; and that serialization depends only on the image object's
key-value bindings, so two image mappings that are equal as maps (a
permutation of entries with distinct keys) serialize to byte-identical
strings. -/
theorem edit_spec_image_canonical (specKvs cpKvs paramKvs tagKvs : List (String × Json))
    (envXs : List Json) (wf st : String) (img : Json) (region acct : String)
    (hcp : dictGet specKvs "containerProperties" = some (.obj cpKvs))
    (henv : dictGet cpKvs "environment" = some (.arr envXs))
    (hparams : dictGet specKvs "parameters" = some (.obj paramKvs))
    (htags : dictGet specKvs "tags" = some (.obj tagKvs)) :
    (∃ outKvs, edit_spec (.obj specKvs) wf st img region acct = .ok (.obj outKvs) ∧
      (dictGet outKvs "parameters").bind (fun ps => bodyField ps "image") =
        some (.str (jsonDumpsCanon img))) ∧
    (∀ kvs1 kvs2 : List (String × Json), kvs1.Perm kvs2 →
      (kvs1.map Prod.fst).Nodup →
      jsonDumpsCanon (.obj kvs1) = jsonDumpsCanon (.obj kvs2)) := by
  constructor
  · refine ⟨_, edit_spec_eq specKvs cpKvs paramKvs tagKvs envXs wf st img region acct
      hcp henv hparams htags, ?_⟩
    rw [dictGet_dictSet_ne _ _ _ _ (by decide), dictGet_dictSet_self]
    simp [bodyField, dictGet_dictSet_self]
  · exact jsonDumpsCanon_obj_perm

/-! ### Heap lemmas -/

/-- Setting a key to the value it already has is the identity. -/
theorem dictSet_eq_of_get {α : Type} (kvs : List (String × α)) (k : String) (v : α)
    (h : dictGet kvs k = some v) : dictSet kvs k v = kvs := by
  induction kvs with
  | nil => simp [dictGet] at h
  | cons p rest ih =>
    by_cases hp : p.1 = k
    · rw [dictGet_cons, if_pos hp] at h
      obtain rfl : p.2 = v := by injection h
      simp [dictSet, hp]
      exact Prod.ext hp.symm rfl
  -- the replaced binding equals the existing one
    · rw [dictGet_cons, if_neg hp] at h
      simp [dictSet, hp, ih h]

/-- Overwriting the object just allocated at the end of the heap. -/
theorem heapSet_alloc (h : Heap) (o o' : PObj) :
    heapSet (h ++ [o]) h.length o' = h ++ [o'] := by
  simp [heapSet, List.set_append]

/-- Reads below the old length see through an allocation. -/
theorem heapGet_append_lt (h : Heap) (ext : List PObj) (a : Nat) (ha : a < h.length) :
    heapGet (h ++ ext) a = heapGet h a := by
  simp [heapGet, List.getElem?_append_left ha]

/-- Reads at another address see through a write. -/
theorem heapGet_set_ne (h : Heap) (a b : Nat) (o : PObj) (hne : b ≠ a) :
    heapGet (heapSet h b o) a = heapGet h a := by
  simp [heapGet, heapSet, List.getElem?_set_ne hne]

/-- Reading an address just written. -/
theorem heapGet_set_self (h : Heap) (a : Nat) (o : PObj) (ha : a < h.length) :
    heapGet (heapSet h a o) a = some o := by
  simp [heapGet, heapSet, List.getElem?_set_self ha]

/-- A successful read means the address is allocated. -/
theorem heapGet_lt_length (h : Heap) (a : Nat) (o : PObj)
    (hg : heapGet h a = some o) : a < h.length :=
  (List.getElem?_eq_some.mp hg).1

/-- Symbolic execution of `edit_spec_heap` on a well-formed spec object
graph (the shape `json.loads` produces: five distinct addresses).  The
result heap shows the full effect: one shallow copy and four fresh entry
dicts are allocated, the shared environment list at `envA` is extended in
place, the shared `parameters` and `tags` dicts are updated in place, and
the write-back to `cpA` stores the value it already had. -/
theorem edit_spec_heap_eq (h : Heap) (specA cpA envA pA tA : Nat)
    (specKvs cpKvs pKvs tKvs : List (String × PVal)) (envXs : List PVal)
    (wf st : String) (img : Json) (region acct : String)
    (hspec : heapGet h specA = some (.dict specKvs))
    (hcp : dictGet specKvs "containerProperties" = some (.ref cpA))
    (hcpO : heapGet h cpA = some (.dict cpKvs))
    (henv : dictGet cpKvs "environment" = some (.ref envA))
    (henvO : heapGet h envA = some (.list envXs))
    (hpv : dictGet specKvs "parameters" = some (.ref pA))
    (hpO : heapGet h pA = some (.dict pKvs))
    (htv : dictGet specKvs "tags" = some (.ref tA))
    (htO : heapGet h tA = some (.dict tKvs))
    (hnd : [specA, cpA, envA, pA, tA].Nodup) :
    edit_spec_heap h specA wf st img region acct =
      .ok (heapSet (heapSet (heapSet (heapSet
        (h ++ [.dict (dictSet specKvs "jobDefinitionName" (.vstr (wf ++ "_" ++ st))),
               .dict [("name", .vstr "BC_WORKFLOW_NAME"), ("value", .vstr wf)],
               .dict [("name", .vstr "BC_STEP_NAME"), ("value", .vstr st)],
               .dict [("name", .vstr "AWS_DEFAULT_REGION"), ("value", .vstr region)],
               .dict [("name", .vstr "AWS_ACCOUNT_ID"), ("value", .vstr acct)]])
        envA (.list (envXs ++ [.ref (h.length + 1), .ref (h.length + 2),
                               .ref (h.length + 3), .ref (h.length + 4)])))
        cpA (.dict cpKvs))
        pA (.dict (dictSet pKvs "image" (.vstr (jsonDumpsCanon img)))))
        tA (.dict (dictSet tKvs "bclaw:workflow" (.vstr wf))),
      h.length) := by
  simp only [List.nodup_cons, List.mem_cons, List.mem_singleton, List.not_mem_nil,
    or_false, not_or, List.nodup_nil, and_true] at hnd
  obtain ⟨⟨hscp, hsenv, hsp, hst'⟩, ⟨hcenv, hcpp, hcpt⟩, ⟨hep, het⟩, hpt, -⟩ := hnd
  have hcpLt : cpA < h.length := heapGet_lt_length h cpA _ hcpO
  have henvLt : envA < h.length := heapGet_lt_length h envA _ henvO
  have hpLt : pA < h.length := heapGet_lt_length h pA _ hpO
  have htLt : tA < h.length := heapGet_lt_length h tA _ htO
  have hcp1 : dictGet (dictSet specKvs "jobDefinitionName" (PVal.vstr (wf ++ "_" ++ st)))
      "containerProperties" = some (.ref cpA) := by
    rw [dictGet_dictSet_ne _ _ _ _ (by decide)]; exact hcp
  have hp1 : dictGet (dictSet specKvs "jobDefinitionName" (PVal.vstr (wf ++ "_" ++ st)))
      "parameters" = some (.ref pA) := by
    rw [dictGet_dictSet_ne _ _ _ _ (by decide)]; exact hpv
  have ht1 : dictGet (dictSet specKvs "jobDefinitionName" (PVal.vstr (wf ++ "_" ++ st)))
      "tags" = some (.ref tA) := by
    rw [dictGet_dictSet_ne _ _ _ _ (by decide)]; exact htv
  have hcpSame : dictSet cpKvs "environment" (PVal.ref envA) = cpKvs :=
    dictSet_eq_of_get _ _ _ henv
  have hlenNeCp : h.length ≠ cpA := ne_of_gt hcpLt
  have hlenNeEnv : h.length ≠ envA := ne_of_gt henvLt
  have hlenNeP : h.length ≠ pA := ne_of_gt hpLt
  have hlenNeT : h.length ≠ tA := ne_of_gt htLt
  simp only [edit_spec_heap, bind, Except.bind, alloc, hspec, heapSet_alloc,
    heapGet_append_lt _ _ _ hcpLt, heapGet_append_lt _ _ _ henvLt,
    heapGet_append_lt _ _ _ hpLt, heapGet_append_lt _ _ _ htLt,
    hcp1, hp1, ht1, hcpO, henv, henvO, hcpSame,
    List.length_append, List.length_cons, List.length_nil,
    List.append_assoc, List.cons_append, List.nil_append,
    heapGet_set_ne _ _ _ _ hep, heapGet_set_ne _ _ _ _ hcpp,
    heapGet_set_ne _ _ _ _ het, heapGet_set_ne _ _ _ _ hcpt,
    heapGet_set_ne _ _ _ _ hpt,
    hpO, htO]

/-! ### C3: `edit_spec` and the caller's spec -/

/-- C3 (amended): `edit_spec` allocates a fresh top-level record (its address
is the old heap length, not an address of the caller's graph) and never
rebinds the caller's top-level spec dict, whose own bindings are unchanged;
but the copy is shallow, so the nested environment list, `parameters` dict
and `tags` dict stay shared with the caller and are mutated in place — the
four entries are appended to the shared environment list, `image` is set in
the shared `parameters` dict, `bclaw:workflow` is set in the shared `tags`
dict — and apart from those three shared containers and the five freshly
allocated objects no address of the heap changes; the only reads of process
state are the `REGION` and `ACCT_NUM` environment variables (the `region` /
`acct` oracles). -/
theorem edit_spec_shallow_copy_effects (h : Heap) (specA cpA envA pA tA : Nat)
    (specKvs cpKvs pKvs tKvs : List (String × PVal)) (envXs : List PVal)
    (wf st : String) (img : Json) (region acct : String)
    (hspec : heapGet h specA = some (.dict specKvs))
    (hcp : dictGet specKvs "containerProperties" = some (.ref cpA))
    (hcpO : heapGet h cpA = some (.dict cpKvs))
    (henv : dictGet cpKvs "environment" = some (.ref envA))
    (henvO : heapGet h envA = some (.list envXs))
    (hpv : dictGet specKvs "parameters" = some (.ref pA))
    (hpO : heapGet h pA = some (.dict pKvs))
    (htv : dictGet specKvs "tags" = some (.ref tA))
    (htO : heapGet h tA = some (.dict tKvs))
    (hnd : [specA, cpA, envA, pA, tA].Nodup) :
    (edit_spec_heap h specA wf st img region acct).map Prod.snd = .ok h.length ∧
    (∀ H retA, edit_spec_heap h specA wf st img region acct = .ok (H, retA) →
      H.length = h.length + 5 ∧
      heapGet H specA = some (.dict specKvs) ∧
      heapGet H retA =
        some (.dict (dictSet specKvs "jobDefinitionName" (.vstr (wf ++ "_" ++ st)))) ∧
      heapGet H cpA = some (.dict cpKvs) ∧
      heapGet H envA = some (.list (envXs ++ [.ref (h.length + 1), .ref (h.length + 2),
        .ref (h.length + 3), .ref (h.length + 4)])) ∧
      heapGet H pA = some (.dict (dictSet pKvs "image" (.vstr (jsonDumpsCanon img)))) ∧
      heapGet H tA = some (.dict (dictSet tKvs "bclaw:workflow" (.vstr wf))) ∧
      (∀ a, a < h.length → a ≠ envA → a ≠ pA → a ≠ tA → heapGet H a = heapGet h a)) := by
  have heq := edit_spec_heap_eq h specA cpA envA pA tA specKvs cpKvs pKvs tKvs envXs
    wf st img region acct hspec hcp hcpO henv henvO hpv hpO htv htO hnd
  simp only [List.nodup_cons, List.mem_cons, List.mem_singleton, List.not_mem_nil,
    or_false, not_or, List.nodup_nil, and_true] at hnd
  obtain ⟨⟨hscp, hsenv, hsp, hst'⟩, ⟨hcenv, hcpp, hcpt⟩, ⟨hep, het⟩, hpt, -⟩ := hnd
  have hsLt : specA < h.length := heapGet_lt_length h specA _ hspec
  have hcpLt : cpA < h.length := heapGet_lt_length h cpA _ hcpO
  have henvLt : envA < h.length := heapGet_lt_length h envA _ henvO
  have hpLt : pA < h.length := heapGet_lt_length h pA _ hpO
  have htLt : tA < h.length := heapGet_lt_length h tA _ htO
  constructor
  · rw [heq]
    rfl
  · intro H retA hH
    rw [heq] at hH
    rw [Except.ok.injEq, Prod.mk.injEq] at hH
    obtain ⟨rfl, rfl⟩ : H = _ ∧ retA = h.length := ⟨hH.1.symm, hH.2.symm⟩
    have hlen5 : (h ++ [PObj.dict (dictSet specKvs "jobDefinitionName"
        (.vstr (wf ++ "_" ++ st))),
        .dict [("name", PVal.vstr "BC_WORKFLOW_NAME"), ("value", PVal.vstr wf)],
        .dict [("name", PVal.vstr "BC_STEP_NAME"), ("value", PVal.vstr st)],
        .dict [("name", PVal.vstr "AWS_DEFAULT_REGION"), ("value", PVal.vstr region)],
        .dict [("name", PVal.vstr "AWS_ACCOUNT_ID"), ("value", PVal.vstr acct)]]).length =
        h.length + 5 := by
      simp
    refine ⟨?_, ?_, ?_, ?_, ?_, ?_, ?_, ?_⟩
    · simp [heapSet]
    · rw [heapGet_set_ne _ _ _ _ (Ne.symm hst'), heapGet_set_ne _ _ _ _ (Ne.symm hsp),
        heapGet_set_ne _ _ _ _ (Ne.symm hscp), heapGet_set_ne _ _ _ _ (Ne.symm hsenv),
        heapGet_append_lt _ _ _ hsLt]
      exact hspec
    · rw [heapGet_set_ne _ _ _ _ (Ne.symm (ne_of_gt htLt)),
        heapGet_set_ne _ _ _ _ (Ne.symm (ne_of_gt hpLt)),
        heapGet_set_ne _ _ _ _ (Ne.symm (ne_of_gt hcpLt)),
        heapGet_set_ne _ _ _ _ (Ne.symm (ne_of_gt henvLt))]
      simp only [heapGet, List.getElem?_append, lt_self_iff_false, if_false, Nat.sub_self]
      rfl
    · rw [heapGet_set_ne _ _ _ _ (Ne.symm hcpt), heapGet_set_ne _ _ _ _ (Ne.symm hcpp),
        heapGet_set_self]
      simp only [heapSet, List.length_set]
      rw [hlen5]
      omega
    · rw [heapGet_set_ne _ _ _ _ (Ne.symm het), heapGet_set_ne _ _ _ _ (Ne.symm hep),
        heapGet_set_ne _ _ _ _ hcenv, heapGet_set_self]
      rw [hlen5]
      omega
    · rw [heapGet_set_ne _ _ _ _ (Ne.symm hpt), heapGet_set_self]
      simp only [heapSet, List.length_set]
      rw [hlen5]
      omega
    · rw [heapGet_set_self]
      simp only [heapSet, List.length_set]
      rw [hlen5]
      omega
    · intro a ha hne1 hne2 hne3
      rw [heapGet_set_ne _ _ _ _ (Ne.symm hne3), heapGet_set_ne _ _ _ _ (Ne.symm hne2)]
      by_cases hac : a = cpA
      · subst hac
        rw [heapGet_set_self, hcpO]
        simp only [heapSet, List.length_set]
        rw [hlen5]
        omega
      · rw [heapGet_set_ne _ _ _ _ (Ne.symm hac), heapGet_set_ne _ _ _ _ (Ne.symm hne1),
          heapGet_append_lt _ _ _ ha]

/-- A concrete well-formed spec object graph: address 0 holds the spec dict,
1 the `containerProperties` dict, 2 the `parameters` dict, 3 the `tags`
dict, 4 the (empty) environment list. -/
def specHeap0 : Heap :=
  [.dict [("type", .vstr "container"), ("containerProperties", .ref 1),
          ("parameters", .ref 2), ("tags", .ref 3)],
   .dict [("environment", .ref 4)],
   .dict [],
   .dict [],
   .list []]

/-- C3 counterexample: on `specHeap0` the caller's spec is not value-equal
before and after `edit_spec` — the resolved spec's environment list has 0
entries before the call and 4 after it (the shallow copy shares the nested
list, and `+=` extends it in place), so the resolved values differ. -/
theorem edit_spec_mutates_input_counterexample :
    envLenOfSpec (resolveV specHeap0 9 (.ref 0)) = some 0 ∧
    (edit_spec_heap specHeap0 0 "wf1" "step1" (.obj [("repo", .str "x")])
        "us-east-1" "123456789012").map
      (fun p => envLenOfSpec (resolveV p.1 9 (.ref 0))) = .ok (some 4) ∧
    (edit_spec_heap specHeap0 0 "wf1" "step1" (.obj [("repo", .str "x")])
        "us-east-1" "123456789012").map
      (fun p => optJsonBeq (resolveV p.1 9 (.ref 0)) (resolveV specHeap0 9 (.ref 0))) =
      .ok false := by
  refine ⟨rfl, rfl, rfl⟩

/-! ### Concrete invocation data (used by the closed instantiations below) -/

/-- A concrete invocation context. -/
def wCtx : Context :=
  { log_group_name := "/aws/lambda/register", log_stream_name := "2026/10/12/abcd" }

/-- A concrete callback URL. -/
def wURL : String :=
  "https://cloudformation-custom-resource-response.s3.amazonaws.com/resp?Signature=abc"

/-- The ARN a successful registration returns. -/
def wArn : String := "arn:aws:batch:us-east-1:123456789012:job-definition/wf1_step1:7"

/-- A batch client whose calls succeed. -/
def wBatchOk : BatchClient :=
  { register_job_definition := fun _ => .ok wArn
    deregister_job_definition := fun _ => .ok () }

/-- A batch client whose calls fail. -/
def wBatchFail : BatchClient :=
  { register_job_definition := fun _ => .error (.apiError "spec rejected")
    deregister_job_definition := fun _ => .error (.apiError "access denied") }

/-- A serialized job-definition spec, as carried in `ResourceProperties.spec`. -/
def wSpecStr : String :=
  "\x7b\"type\": \"container\", \"parameters\": \x7b\x7d, \"containerProperties\": \x7b\"image\": \"ubuntu\", \"environment\": []\x7d, \"tags\": \x7b\x7d\x7d"

/-- The concrete resource properties of a Create event. -/
def wProps : ResourceProperties :=
  { workflowName := some "wf1"
    stepName := some "step1"
    image := some (.obj [("repo", .str "x"), ("tag", .str "v2")])
    spec := some wSpecStr }

/-- A complete Create event. -/
def wEventCreate : Event :=
  { RequestType := some "Create"
    PhysicalResourceId := none
    StackId := some "stack-1"
    RequestId := some "req-1"
    LogicalResourceId := some "MyJobDef"
    ResponseURL := some wURL
    ResourceProperties := some wProps }

/-- A Delete event carrying a physical resource id. -/
def wEventDelete : Event :=
  { wEventCreate with
      RequestType := some "Delete"
      PhysicalResourceId := some "arn:aws:batch:us-east-1:123456789012:job-definition/wf1_step1:6" }

/-- A Delete event without a physical resource id. -/
def wEventDeleteNoPri : Event :=
  { wEventCreate with RequestType := some "Delete" }

/-- A Create event missing `StackId`. -/
def wEventNoStack : Event := { wEventCreate with StackId := none }

/-- A Create event missing `ResponseURL`. -/
def wEventNoURL : Event := { wEventCreate with ResponseURL := none }

/-- The parsed value of `wSpecStr` (insertion order preserved). -/
def wSpecKvs : List (String × Json) :=
  [("type", .str "container"), ("parameters", .obj []),
   ("containerProperties", .obj [("image", .str "ubuntu"), ("environment", .arr [])]),
   ("tags", .obj [])]

/-- The image value used in the concrete runs. -/
def wImg : Json := .obj [("repo", .str "x"), ("tag", .str "v2")]

/-- The edited spec produced from `wSpecKvs` by `edit_spec`. -/
def wSpecOut : Json :=
  .obj [("type", .str "container"),
        ("parameters", .obj [("image", .str "\x7b\"repo\":\"x\",\"tag\":\"v2\"\x7d")]),
        ("containerProperties", .obj [("image", .str "ubuntu"),
          ("environment", .arr
            [.obj [("name", .str "BC_WORKFLOW_NAME"), ("value", .str "wf1")],
             .obj [("name", .str "BC_STEP_NAME"), ("value", .str "step1")],
             .obj [("name", .str "AWS_DEFAULT_REGION"), ("value", .str "us-east-1")],
             .obj [("name", .str "AWS_ACCOUNT_ID"), ("value", .str "123456789012")]])]),
        ("tags", .obj [("bclaw:workflow", .str "wf1")]),
        ("jobDefinitionName", .str "wf1_step1")]

/-- The heap after `edit_spec_heap` on `specHeap0`. -/
def wHeapAfter : Heap :=
  [.dict [("type", .vstr "container"), ("containerProperties", .ref 1),
          ("parameters", .ref 2), ("tags", .ref 3)],
   .dict [("environment", .ref 4)],
   .dict [("image", .vstr "\x7b\"repo\":\"x\"\x7d")],
   .dict [("bclaw:workflow", .vstr "wf1")],
   .list [.ref 6, .ref 7, .ref 8, .ref 9],
   .dict [("type", .vstr "container"), ("containerProperties", .ref 1),
          ("parameters", .ref 2), ("tags", .ref 3),
          ("jobDefinitionName", .vstr "wf1_step1")],
   .dict [("name", .vstr "BC_WORKFLOW_NAME"), ("value", .vstr "wf1")],
   .dict [("name", .vstr "BC_STEP_NAME"), ("value", .vstr "step1")],
   .dict [("name", .vstr "AWS_DEFAULT_REGION"), ("value", .vstr "us-east-1")],
   .dict [("name", .vstr "AWS_ACCOUNT_ID"), ("value", .vstr "123456789012")]]

/-- A scope body that completes normally after overwriting `Status`. -/
def wBodySetsStatus : Response → Response × Option PyErr × List Effect :=
  fun r => ({ r with Status := "BOGUS" }, none, [])

/-- A scope body that raises. -/
def wBodyRaises : Response → Response × Option PyErr × List Effect :=
  fun r => (r, some (.valueError "boom"), [])

/-! ### Closed instantiations of the theorems above -/

/-- C1 at a concrete Delete event with a failing batch client. -/
theorem lambda_handler_exactly_one_callback_witness :
    wEventDelete.StackId = some "stack-1" ∧ wEventDelete.ResponseURL = some wURL ∧
    (lambda_handler wEventDelete wCtx wBatchFail "us-east-1" "123456789012").1 = .ok () ∧
    countPuts (lambda_handler wEventDelete wCtx wBatchFail "us-east-1" "123456789012").2 = 1 :=
  ⟨rfl, rfl, lambda_handler_exactly_one_callback wEventDelete wCtx wBatchFail
    "us-east-1" "123456789012" "stack-1" "req-1" "MyJobDef" wURL rfl rfl rfl rfl⟩

/-- C2 at a Delete event with an id and a failing deregister, and at a
Delete event without an id. -/
theorem lambda_handler_delete_path_witness :
    wEventDelete.PhysicalResourceId =
      some "arn:aws:batch:us-east-1:123456789012:job-definition/wf1_step1:6" ∧
    (Effect.deregisterCall "arn:aws:batch:us-east-1:123456789012:job-definition/wf1_step1:6" ∈
      (lambda_handler wEventDelete wCtx wBatchFail "us-east-1" "123456789012").2 ∧
      (deliveredBodies (lambda_handler wEventDelete wCtx wBatchFail "us-east-1" "123456789012").2).map
        (fun b => bodyField b "Status") = [some (.str "SUCCESS")]) ∧
    ((∀ id, Effect.deregisterCall id ∉
        (lambda_handler wEventDeleteNoPri wCtx wBatchOk "us-east-1" "123456789012").2) ∧
      (deliveredBodies (lambda_handler wEventDeleteNoPri wCtx wBatchOk "us-east-1" "123456789012").2).map
        (fun b => bodyField b "Status") = [some (.str "SUCCESS")]) :=
  ⟨rfl,
   (lambda_handler_delete_path wEventDelete wCtx wBatchFail "us-east-1" "123456789012"
      "stack-1" "req-1" "MyJobDef" wURL "Delete" rfl rfl rfl rfl rfl
      (by decide) (by decide)).1 _ rfl,
   (lambda_handler_delete_path wEventDeleteNoPri wCtx wBatchOk "us-east-1" "123456789012"
      "stack-1" "req-1" "MyJobDef" wURL "Delete" rfl rfl rfl rfl rfl
      (by decide) (by decide)).2 rfl⟩

/-- C3 (amended) at the concrete heap `specHeap0`. -/
theorem edit_spec_shallow_copy_effects_witness :
    heapGet specHeap0 0 = some (.dict [("type", .vstr "container"),
      ("containerProperties", .ref 1), ("parameters", .ref 2), ("tags", .ref 3)]) ∧
    ([0, 1, 4, 2, 3] : List Nat).Nodup ∧
    (edit_spec_heap specHeap0 0 "wf1" "step1" (.obj [("repo", .str "x")])
      "us-east-1" "123456789012").map Prod.snd = .ok specHeap0.length ∧
    heapGet wHeapAfter 0 = some (.dict [("type", .vstr "container"),
      ("containerProperties", .ref 1), ("parameters", .ref 2), ("tags", .ref 3)]) ∧
    heapGet wHeapAfter 4 = some (.list [.ref (specHeap0.length + 1),
      .ref (specHeap0.length + 2), .ref (specHeap0.length + 3), .ref (specHeap0.length + 4)]) := by
  have T := edit_spec_shallow_copy_effects specHeap0 0 1 4 2 3
    [("type", .vstr "container"), ("containerProperties", .ref 1),
     ("parameters", .ref 2), ("tags", .ref 3)]
    [("environment", .ref 4)] [] [] []
    "wf1" "step1" (.obj [("repo", .str "x")]) "us-east-1" "123456789012"
    rfl rfl rfl rfl rfl rfl rfl rfl rfl (by decide)
  have P := T.2 wHeapAfter specHeap0.length rfl
  exact ⟨rfl, by decide, T.1, P.2.1, P.2.2.2.2.1⟩

/-- C4 at a concrete raising body. -/
theorem responder_exception_swallowed_witness :
    wBodyRaises (initResponse wEventCreate "stack-1" "req-1" "MyJobDef" false) =
      (initResponse wEventCreate "stack-1" "req-1" "MyJobDef" false,
        some (.valueError "boom"), []) ∧
    (responder wEventCreate wCtx false wBodyRaises =
      (.ok (), [] ++ [respond wURL (Response.asdict
        { initResponse wEventCreate "stack-1" "req-1" "MyJobDef" false with
            Reason := diagReason wCtx })]) ∧
      ({ initResponse wEventCreate "stack-1" "req-1" "MyJobDef" false with
          Reason := diagReason wCtx } : Response).Reason =
        "see log group " ++ wCtx.log_group_name ++ " / log stream " ++ wCtx.log_stream_name ∧
      ({ initResponse wEventCreate "stack-1" "req-1" "MyJobDef" false with
          Reason := diagReason wCtx } : Response).Status =
        (initResponse wEventCreate "stack-1" "req-1" "MyJobDef" false).Status) :=
  ⟨rfl, responder_exception_swallowed wEventCreate wCtx false wBodyRaises
    "stack-1" "req-1" "MyJobDef" wURL rfl rfl rfl rfl
    (initResponse wEventCreate "stack-1" "req-1" "MyJobDef" false)
    (.valueError "boom") [] rfl⟩

/-- C5 at a concrete body that overwrites `Status` and returns normally. -/
theorem responder_status_lifecycle_witness :
    wBodySetsStatus (initResponse wEventCreate "stack-1" "req-1" "MyJobDef" false) =
      ({ initResponse wEventCreate "stack-1" "req-1" "MyJobDef" false with Status := "BOGUS" },
        none, []) ∧
    ((initResponse wEventCreate "stack-1" "req-1" "MyJobDef" false).Status = "FAILED" ∧
      responder wEventCreate wCtx false wBodySetsStatus =
        (.ok (), [] ++ [respond wURL (Response.asdict
          { { initResponse wEventCreate "stack-1" "req-1" "MyJobDef" false with
              Status := "BOGUS" } with Status := "SUCCESS" })])) :=
  ⟨rfl, responder_status_lifecycle wEventCreate wCtx false wBodySetsStatus
    "stack-1" "req-1" "MyJobDef" wURL rfl rfl rfl rfl
    { initResponse wEventCreate "stack-1" "req-1" "MyJobDef" false with Status := "BOGUS" }
    [] rfl⟩

/-- C6 at the concrete Create event, through parsing, editing and a
successful registration. -/
theorem lambda_handler_create_update_success_witness :
    jsonLoads wSpecStr = .ok (.obj wSpecKvs) ∧
    edit_spec (.obj wSpecKvs) "wf1" "step1" wImg "us-east-1" "123456789012" = .ok wSpecOut ∧
    wBatchOk.register_job_definition wSpecOut = .ok wArn ∧
    (lambda_handler wEventCreate wCtx wBatchOk "us-east-1" "123456789012" =
      (.ok (), [.registerCall wSpecOut,
        respond wURL (Response.asdict
          { PhysicalResourceId := some wArn, StackId := "stack-1", RequestId := "req-1",
            LogicalResourceId := "MyJobDef", Status := "SUCCESS", Reason := "",
            NoEcho := false, Data := [("Arn", .str wArn)] })]) ∧
      (deliveredBodies (lambda_handler wEventCreate wCtx wBatchOk "us-east-1" "123456789012").2).map
        (fun b => bodyField b "Status") = [some (.str "SUCCESS")] ∧
      (deliveredBodies (lambda_handler wEventCreate wCtx wBatchOk "us-east-1" "123456789012").2).map
        (fun b => bodyField b "PhysicalResourceId") = [some (.str wArn)] ∧
      (deliveredBodies (lambda_handler wEventCreate wCtx wBatchOk "us-east-1" "123456789012").2).map
        (fun b => (bodyField b "Data").bind (fun d => bodyField d "Arn")) =
        [some (.str wArn)]) :=
  ⟨rfl, rfl, rfl,
   lambda_handler_create_update_success wEventCreate wCtx wBatchOk "us-east-1" "123456789012"
    "stack-1" "req-1" "MyJobDef" wURL "Create" wProps wSpecStr (.obj wSpecKvs)
    "wf1" "step1" wImg wSpecOut wArn
    rfl rfl rfl rfl rfl (Or.inl rfl) rfl rfl rfl rfl rfl rfl rfl rfl⟩

/-- C7 at the concrete spec, plus byte-identical serialization of the two
key-orderings of the same image map. -/
theorem edit_spec_image_canonical_witness :
    dictGet wSpecKvs "containerProperties" =
      some (.obj [("image", .str "ubuntu"), ("environment", .arr [])]) ∧
    (∃ outKvs, edit_spec (.obj wSpecKvs) "wf1" "step1" wImg "us-east-1" "123456789012" =
        .ok (.obj outKvs) ∧
      (dictGet outKvs "parameters").bind (fun ps => bodyField ps "image") =
        some (.str (jsonDumpsCanon wImg))) ∧
    jsonDumpsCanon (.obj [("repo", .str "x"), ("tag", .str "v2")]) =
      jsonDumpsCanon (.obj [("tag", .str "v2"), ("repo", .str "x")]) := by
  have T := edit_spec_image_canonical wSpecKvs
    [("image", .str "ubuntu"), ("environment", .arr [])] [] [] []
    "wf1" "step1" wImg "us-east-1" "123456789012" rfl rfl rfl rfl
  exact ⟨rfl, T.1, T.2 _ _ (List.Perm.swap _ _ _) (by decide)⟩

/-- C8 at the concrete spec (empty input environment). -/
theorem edit_spec_env_append_witness :
    dictGet wSpecKvs "containerProperties" =
      some (.obj [("image", .str "ubuntu"), ("environment", .arr [])]) ∧
    (∃ outKvs, edit_spec (.obj wSpecKvs) "wf1" "step1" wImg "us-east-1" "123456789012" =
        .ok (.obj outKvs) ∧
      (dictGet outKvs "containerProperties").bind (fun cp => bodyField cp "environment") =
        some (.arr ([] ++
          [.obj [("name", .str "BC_WORKFLOW_NAME"), ("value", .str "wf1")],
           .obj [("name", .str "BC_STEP_NAME"), ("value", .str "step1")],
           .obj [("name", .str "AWS_DEFAULT_REGION"), ("value", .str "us-east-1")],
           .obj [("name", .str "AWS_ACCOUNT_ID"), ("value", .str "123456789012")]]))) :=
  ⟨rfl, edit_spec_env_append wSpecKvs
    [("image", .str "ubuntu"), ("environment", .arr [])] [] [] []
    "wf1" "step1" wImg "us-east-1" "123456789012" rfl rfl rfl rfl⟩

/-- C9 at the concrete spec. -/
theorem edit_spec_name_and_tags_witness :
    dictGet wSpecKvs "tags" = some (.obj []) ∧
    (∃ outKvs tagOut, edit_spec (.obj wSpecKvs) "wf1" "step1" wImg "us-east-1" "123456789012" =
        .ok (.obj outKvs) ∧
      dictGet outKvs "jobDefinitionName" = some (.str ("wf1" ++ "_" ++ "step1")) ∧
      dictGet outKvs "tags" = some (.obj tagOut) ∧
      dictGet tagOut "bclaw:workflow" = some (.str "wf1") ∧
      (∀ k, k ≠ "bclaw:workflow" → dictGet tagOut k = dictGet ([] : List (String × Json)) k)) :=
  ⟨rfl, edit_spec_name_and_tags wSpecKvs
    [("image", .str "ubuntu"), ("environment", .arr [])] [] [] []
    "wf1" "step1" wImg "us-east-1" "123456789012" rfl rfl rfl rfl⟩

/-- C10 at a Create event missing `StackId` and at one missing
`ResponseURL`. -/
theorem lambda_handler_missing_fields_witness :
    ((lambda_handler wEventNoStack wCtx wBatchOk "us-east-1" "123456789012").2 = [] ∧
      ∃ key, (lambda_handler wEventNoStack wCtx wBatchOk "us-east-1" "123456789012").1 =
        .error (.keyError key)) ∧
    ((lambda_handler wEventNoURL wCtx wBatchOk "us-east-1" "123456789012").1 =
        .error (.keyError "ResponseURL") ∧
      countPuts (lambda_handler wEventNoURL wCtx wBatchOk "us-east-1" "123456789012").2 = 0) :=
  ⟨(lambda_handler_missing_fields wEventNoStack wCtx wBatchOk "us-east-1" "123456789012").1
      (Or.inl rfl),
   (lambda_handler_missing_fields wEventNoURL wCtx wBatchOk "us-east-1" "123456789012").2
      "stack-1" "req-1" "MyJobDef" rfl rfl rfl rfl⟩
